import Mathlib

/-!
# Ponzu system configuration editor

A verification development for `system/admin/config/config.go`: the `Config`
content type and its `MarshalEditor` method, which hands an ordered list of
field views to `editor.Form` and wraps the composed form in fixed chrome.

Go values are embedded as follows.

* `[]byte` is a list of bytes; a `nil` slice is the empty list.
* `string` is `String`; a conversion `[]byte(s)` is the UTF-8 encoding `utf8 s`.
* `int64` is an `Int`.
* `map[string]string` literals are lists of key/value pairs in the order the
  source writes them (their keys are distinct).
* A result `([]byte, error)` is a pair whose second component is `none` for a
  `nil` error.
* The package `management/editor` and the embedded `item.Item` are declared
  outside this file of the repository; they enter as parameters (`Editor`,
  the type argument of `Config`).
-/

set_option autoImplicit false

namespace Ponzu

/-! ## Byte strings -/

/-- Go `[]byte`. -/
abbrev Bytes := List UInt8

/-- Go `[]byte(s)` for a string `s`: its UTF-8 encoding. -/
def utf8 (s : String) : Bytes := s.data.flatMap String.utf8EncodeChar

/-- Go `error`, identified with its message; `none` stands for `nil`. -/
abbrev Error := String

/-- Go `map[string]string` literal, as written. -/
abbrev Attrs := List (String × String)

/-! ## The `Config` content type -/

/-- The configurable options of the system. `Item` is the embedded `item.Item`. -/
structure Config (Item : Type) where
  Item : Item
  Name : String
  Domain : String
  BindAddress : String
  HTTPPort : String
  HTTPSPort : String
  AdminEmail : String
  ClientSecret : String
  Etag : String
  DisableCORS : Bool
  DisableGZIP : Bool
  DisableHTTPCache : Bool
  CacheMaxAge : Int
  CacheInvalidate : List String
  BackupBasicAuthUser : String
  BackupBasicAuthPassword : String

/-- Go types of the declared fields of `Config`. -/
inductive GoType where
  | string
  | bool
  | int64
  | stringSlice
  deriving DecidableEq, Repr

/-- One declared field of the struct: its Go name, Go type and `json` tag. -/
structure StructField where
  name : String
  type : GoType
  json : String
  deriving DecidableEq, Repr

/-- The fifteen declared fields of `Config`, in declaration order, with their
`json` struct tags. -/
def Config.structFields : List StructField :=
  [ ⟨"Name", .string, "name"⟩,
    ⟨"Domain", .string, "domain"⟩,
    ⟨"BindAddress", .string, "bind_addr"⟩,
    ⟨"HTTPPort", .string, "http_port"⟩,
    ⟨"HTTPSPort", .string, "https_port"⟩,
    ⟨"AdminEmail", .string, "admin_email"⟩,
    ⟨"ClientSecret", .string, "client_secret"⟩,
    ⟨"Etag", .string, "etag"⟩,
    ⟨"DisableCORS", .bool, "cors_disabled"⟩,
    ⟨"DisableGZIP", .bool, "gzip_disabled"⟩,
    ⟨"DisableHTTPCache", .bool, "cache_disabled"⟩,
    ⟨"CacheMaxAge", .int64, "cache_max_age"⟩,
    ⟨"CacheInvalidate", .stringSlice, "cache"⟩,
    ⟨"BackupBasicAuthUser", .string, "backup_basic_auth_user"⟩,
    ⟨"BackupBasicAuthPassword", .string, "backup_basic_auth_password"⟩ ]

/-- Names of the declared fields. -/
def Config.fieldNames : List String := Config.structFields.map StructField.name

/-- The `json` tag of a declared field, `none` for a name the struct lacks. -/
def Config.jsonTag (fieldName : String) : Option String :=
  (Config.structFields.find? (fun f => f.name == fieldName)).map StructField.json

/-- A field value read off an entity. -/
inductive Value where
  | str (s : String)
  | bool (b : Bool)
  | int (n : Int)
  | strs (l : List String)
  deriving DecidableEq, Repr

/-- The current value of a declared field of the entity, by Go field name. -/
def Config.fieldValue {Item : Type} (c : Config Item) (fieldName : String) : Option Value :=
  if fieldName = "Name" then some (.str c.Name)
  else if fieldName = "Domain" then some (.str c.Domain)
  else if fieldName = "BindAddress" then some (.str c.BindAddress)
  else if fieldName = "HTTPPort" then some (.str c.HTTPPort)
  else if fieldName = "HTTPSPort" then some (.str c.HTTPSPort)
  else if fieldName = "AdminEmail" then some (.str c.AdminEmail)
  else if fieldName = "ClientSecret" then some (.str c.ClientSecret)
  else if fieldName = "Etag" then some (.str c.Etag)
  else if fieldName = "DisableCORS" then some (.bool c.DisableCORS)
  else if fieldName = "DisableGZIP" then some (.bool c.DisableGZIP)
  else if fieldName = "DisableHTTPCache" then some (.bool c.DisableHTTPCache)
  else if fieldName = "CacheMaxAge" then some (.int c.CacheMaxAge)
  else if fieldName = "CacheInvalidate" then some (.strs c.CacheInvalidate)
  else if fieldName = "BackupBasicAuthUser" then some (.str c.BackupBasicAuthUser)
  else if fieldName = "BackupBasicAuthPassword" then some (.str c.BackupBasicAuthPassword)
  else none

/-- The constant `dbBackupInfo`. -/
def dbBackupInfo : String :=
  "\n" ++
  "\t\t<p class=\"flow-text\">数据库备份认证：</p>\n" ++
  "\t\t<p>添加一个用户名和密码以限制您的数据库备份文件从HTTP下载。</p>\n" ++
  "\t"

/-! ## The editor package, as a parameter -/

/-- Go `editor.Field`: one pre-rendered view. -/
structure Field where
  View : Bytes
  deriving DecidableEq, Repr

/-- The three functions of `management/editor` that `MarshalEditor` calls.
`Input fieldName p attrs` and `Checkbox fieldName p attrs options` return the
bytes of one element; `Form post fields` returns the composed form and an
error. -/
structure Editor (Item : Type) where
  Input : String → Config Item → Attrs → Bytes
  Checkbox : String → Config Item → Attrs → Attrs → Bytes
  Form : Config Item → List Field → Bytes × Option Error

/-! ## The descriptor list of `MarshalEditor` -/

/-- One argument of the call `editor.Form(c, ...)`, as the source writes it: a
call of `editor.Input`, a call of `editor.Checkbox`, or literal bytes. -/
inductive Descriptor where
  | Input (fieldName : String) (attrs : Attrs)
  | Checkbox (fieldName : String) (attrs : Attrs) (options : Attrs)
  | Literal (view : Bytes)
  deriving DecidableEq, Repr

/-- The entity field a descriptor is bound to; a literal binds none. -/
def Descriptor.fieldName : Descriptor → Option String
  | .Input n _ => some n
  | .Checkbox n _ _ => some n
  | .Literal _ => none

/-- The options mapping (`attrs`) of a generator call. -/
def Descriptor.attrs : Descriptor → Attrs
  | .Input _ a => a
  | .Checkbox _ a _ => a
  | .Literal _ => []

/-- The eighteen `editor.Field` arguments of `editor.Form(c, ...)` in
`MarshalEditor`, in source order. -/
def Config.descriptors {Item : Type} (c : Config Item) : List Descriptor :=
  [ .Input "Name"
      [("label", "站点名称（仅供内部使用）"),
       ("placeholder", "设置一个站点名称（仅供内部使用）")],
    .Input "Domain"
      [("label", "域名 （配置SSL证书时需要）"),
       ("placeholder", "例如： www.example.com 或 example.com")],
    .Input "BindAddress" [("type", "hidden")],
    .Input "HTTPPort" [("type", "hidden")],
    .Input "HTTPSPort" [("type", "hidden")],
    .Input "AdminEmail"
      [("label", "管理员邮件地址（消息提醒和内部信息接收用）")],
    .Input "ClientSecret"
      [("label", "客户端密码（用于验证请求，一般人别告诉他）"),
       ("disabled", "true")],
    .Input "ClientSecret" [("type", "hidden")],
    .Input "Etag"
      [("label", "Etag头消息（用于缓存控制）"),
       ("disabled", "true")],
    .Input "Etag" [("type", "hidden")],
    .Checkbox "DisableCORS"
      [("label", "禁用 CORS （如此则仅" ++ c.Domain ++ "可以访问到您的数据）")]
      [("true", "禁用 CORS")],
    .Checkbox "DisableGZIP"
      [("label", "禁用 GZIP （禁用压缩GZIP能提升服务器速度，但是消耗更多带宽）")]
      [("true", "禁用 GZIP")],
    .Checkbox "DisableHTTPCache"
      [("label", "禁用 HTTP 缓存 （重写 \x27Cache-Control\x27 头消息）")]
      [("true", "禁用 HTTP 缓存")],
    .Input "CacheMaxAge"
      [("label", "HTTP缓存的Max-Age值（单位：秒，0 ～ 259200）"),
       ("type", "text")],
    .Checkbox "CacheInvalidate"
      [("label", "保存的同时使缓存失效")]
      [("invalidate", "使缓存失效")],
    .Literal (utf8 dbBackupInfo),
    .Input "BackupBasicAuthUser"
      [("label", "HTTP认证用户名"),
       ("placeholder", "输入一个用户名"),
       ("type", "text")],
    .Input "BackupBasicAuthPassword"
      [("label", "HTTP认证密码"),
       ("placeholder", "输入一个密码"),
       ("type", "password")] ]

/-- Evaluation of one descriptor: the generator is called with the field
name, the entity itself and the options; a literal is taken as it is. -/
def Descriptor.view {Item : Type} (ed : Editor Item) (c : Config Item) : Descriptor → Field
  | .Input n a => ⟨ed.Input n c a⟩
  | .Checkbox n a o => ⟨ed.Checkbox n c a o⟩
  | .Literal v => ⟨v⟩

/-- The variadic `fields` argument of `editor.Form(c, ...)`. -/
def Config.formFields {Item : Type} (ed : Editor Item) (c : Config Item) : List Field :=
  c.descriptors.map (Descriptor.view ed c)

/-! ## `MarshalEditor` -/

/-- The local `open` of `MarshalEditor`. -/
def openBytes : Bytes := utf8 (
  "\n" ++
  "\t<div class=\"card\">\n" ++
  "\t\t<div class=\"card-content\">\n" ++
  "\t\t\t<div class=\"card-title\">系统设置</div>\n" ++
  "\t\t</div>\n" ++
  "\t\t<form action=\"/admin/configure\" method=\"post\">\n" ++
  "\t")

/-- The local `close` of `MarshalEditor`. -/
def close : Bytes := utf8 "</form></div>"

/-- The local `script` of `MarshalEditor`. -/
def script : Bytes := utf8 (
  "\n" ++
  "\t<script>\n" ++
  "\t\t$(function() \x7b\n" ++
  "\t\t\t// hide default fields & labels unnecessary for the config\n" ++
  "\t\t\tvar fields = $(\x27.default-fields\x27);\n" ++
  "\t\t\tfields.css(\x27position\x27, \x27relative\x27);\n" ++
  "\t\t\tfields.find(\x27input:not([type=submit])\x27).remove();\n" ++
  "\t\t\tfields.find(\x27label\x27).remove();\n" ++
  "\t\t\tfields.find(\x27button\x27).css(\x7b\n" ++
  "\t\t\t\tposition: \x27absolute\x27,\n" ++
  "\t\t\t\ttop: \x27-10px\x27,\n" ++
  "\t\t\t\tright: \x270px\x27\n" ++
  "\t\t\t\x7d);\n" ++
  "\n" ++
  "\t\t\tvar contentOnly = $(\x27.content-only.__ponzu\x27);\n" ++
  "\t\t\tcontentOnly.hide();\n" ++
  "\t\t\tcontentOnly.find(\x27input, textarea, select\x27).attr(\x27name\x27, \x27\x27);\n" ++
  "\n" ++
  "\t\t\t// adjust layout of td so save button is in same location as usual\n" ++
  "\t\t\tfields.find(\x27td\x27).css(\x27float\x27, \x27right\x27);\n" ++
  "\n" ++
  "\t\t\t// stop some fixed config settings from being modified\n" ++
  "\t\t\tfields.find(\x27input[name=client_secret]\x27).attr(\x27name\x27, \x27\x27);\n" ++
  "\t\t\x7d);\n" ++
  "\t</script>\n" ++
  "\t")

/-- The method `MarshalEditor`: composes the form from the descriptor list; on
an error of `editor.Form` returns `nil` and the error, otherwise the form
between `open` and `close` followed by `script`, and a `nil` error. -/
def Config.MarshalEditor {Item : Type} (ed : Editor Item) (c : Config Item) :
    Bytes × Option Error :=
  match ed.Form c (c.formFields ed) with
  | (_, some err) => ([], some err)
  | (view, none) =>
    let view := openBytes ++ view
    let view := view ++ close
    let view := view ++ script
    (view, none)

/-! ## Stored values, binding counts and external names -/

/-- Modelled from the spec: the step that stores a submitted `CacheMaxAge`.
The decoder and the store are outside this file of the repository; the spec
says the value "must be clamped to [0, 259200]" and that "out-of-range input
is clamped, not rejected". -/
def clampCacheMaxAge (n : Int) : Int :=
  if n < 0 then 0 else if 259200 < n then 259200 else n

/-- The number of descriptors bound to a field name. -/
def Config.bindCount {Item : Type} (c : Config Item) (fieldName : String) : Nat :=
  (c.descriptors.filterMap Descriptor.fieldName).count fieldName

/-- The descriptors bound to a field name, in order. -/
def Config.boundTo {Item : Type} (c : Config Item) (fieldName : String) : List Descriptor :=
  c.descriptors.filter (fun d => d.fieldName == some fieldName)

/-- A character of an external name: a lowercase ASCII letter or an underscore. -/
def isExternalNameChar (ch : Char) : Bool :=
  (decide ('a' ≤ ch) && decide (ch ≤ 'z')) || ch == '_'

/-- A well-formed external name: non-empty, lowercase letters and underscores. -/
def isExternalName (s : String) : Bool :=
  !s.data.isEmpty && s.data.all isExternalNameChar

/-- The method `String`: overrides the embedded item's `String()`. -/
def Config.String {Item : Type} (c : Config Item) : String := c.Name

/-! ## Sample inputs -/

/-- A default-like entity used to instantiate the theorems. -/
def sampleConfig : Config Unit where
  Item := ()
  Name := "Ponzu"
  Domain := "example.com"
  BindAddress := ""
  HTTPPort := "8080"
  HTTPSPort := "443"
  AdminEmail := "admin@example.com"
  ClientSecret := "abc123"
  Etag := "e1"
  DisableCORS := false
  DisableGZIP := false
  DisableHTTPCache := false
  CacheMaxAge := 3600
  CacheInvalidate := []
  BackupBasicAuthUser := ""
  BackupBasicAuthPassword := ""

/-- An editor whose generators echo the field name and whose `Form` joins the
views it is given. -/
def joinEditor : Editor Unit where
  Input := fun n _ _ => utf8 n
  Checkbox := fun n _ _ _ => utf8 n
  Form := fun _ fs => (fs.flatMap Field.View, none)

/-- An editor whose `Form` reports an error next to a partly written buffer. -/
def failingEditor : Editor Unit where
  Input := fun n _ _ => utf8 n
  Checkbox := fun n _ _ _ => utf8 n
  Form := fun _ _ => (utf8 "<table>", some "write failed")

/-! ## Theorems -/

/-- C1: whenever `editor.Form` returns a non-nil error, whatever bytes come
with it, `MarshalEditor` returns that same error and a nil document. -/
theorem MarshalEditor_propagates_error {Item : Type} (ed : Editor Item) (c : Config Item)
    (view : Bytes) (err : Error)
    (h : ed.Form c (c.formFields ed) = (view, some err)) :
    c.MarshalEditor ed = ([], some err) := by
  simp [Config.MarshalEditor, h]

/-- Witness of C1 on an editor whose `Form` fails after writing some bytes. -/
theorem MarshalEditor_propagates_error_witness :
    failingEditor.Form sampleConfig (sampleConfig.formFields failingEditor)
        = (utf8 "<table>", some "write failed") ∧
      sampleConfig.MarshalEditor failingEditor = ([], some "write failed") :=
  ⟨rfl, MarshalEditor_propagates_error failingEditor sampleConfig (utf8 "<table>")
    "write failed" rfl⟩

/-- C2: when `editor.Form` succeeds with view `v`, `MarshalEditor` returns no
error and exactly `open ++ v ++ close ++ script`; the document starts with
`open`, which declares the form with action "/admin/configure" and method
"post", holds `v` contiguously, and ends with `</form></div>` followed by the
script; none of the three chrome constants takes the entity as an argument. -/
theorem MarshalEditor_wraps_view {Item : Type} (ed : Editor Item) (c : Config Item)
    (v : Bytes) (h : ed.Form c (c.formFields ed) = (v, none)) :
    c.MarshalEditor ed = (openBytes ++ v ++ close ++ script, none) ∧
      openBytes <+: (c.MarshalEditor ed).1 ∧
      v <:+: (c.MarshalEditor ed).1 ∧
      (close ++ script) <:+ (c.MarshalEditor ed).1 ∧
      utf8 "<form action=\"/admin/configure\" method=\"post\">" <:+: openBytes ∧
      close = utf8 "</form></div>" := by
  have hdoc : c.MarshalEditor ed = (openBytes ++ v ++ close ++ script, none) := by
    simp [Config.MarshalEditor, h]
  refine ⟨hdoc, ?_, ?_, ?_, ?_, rfl⟩
  · rw [hdoc]
    exact ⟨v ++ close ++ script, by simp [List.append_assoc]⟩
  · rw [hdoc]
    exact ⟨openBytes, close ++ script, by simp [List.append_assoc]⟩
  · rw [hdoc]
    exact ⟨openBytes ++ v, by simp [List.append_assoc]⟩
  · exact ⟨utf8 ("\n\t<div class=\"card\">\n\t\t<div class=\"card-content\">\n" ++
        "\t\t\t<div class=\"card-title\">系统设置</div>\n\t\t</div>\n\t\t"),
      utf8 "\n\t", by decide⟩

/-- Witness of C2 on an editor whose `Form` joins the views. -/
theorem MarshalEditor_wraps_view_witness :
    joinEditor.Form sampleConfig (sampleConfig.formFields joinEditor)
        = ((sampleConfig.formFields joinEditor).flatMap Field.View, none) ∧
      sampleConfig.MarshalEditor joinEditor
        = (openBytes ++ (sampleConfig.formFields joinEditor).flatMap Field.View
            ++ close ++ script, none) :=
  ⟨rfl, (MarshalEditor_wraps_view joinEditor sampleConfig
    ((sampleConfig.formFields joinEditor).flatMap Field.View) rfl).1⟩

/-- Every options mapping of the descriptor list has pairwise distinct keys, as
a Go map literal must. -/
theorem descriptors_attrs_keys_nodup {Item : Type} (c : Config Item) :
    c.descriptors.map (fun d => d.attrs.map Prod.fst) =
      [["label", "placeholder"], ["label", "placeholder"], ["type"], ["type"], ["type"],
       ["label"], ["label", "disabled"], ["type"], ["label", "disabled"], ["type"],
       ["label"], ["label"], ["label"], ["label", "type"], ["label"], [],
       ["label", "placeholder", "type"], ["label", "placeholder", "type"]] ∧
      ∀ ks ∈ c.descriptors.map (fun d => d.attrs.map Prod.fst), ks.Nodup := by
  have h : c.descriptors.map (fun d => d.attrs.map Prod.fst) =
      [["label", "placeholder"], ["label", "placeholder"], ["type"], ["type"], ["type"],
       ["label"], ["label", "disabled"], ["type"], ["label", "disabled"], ["type"],
       ["label"], ["label"], ["label"], ["label", "type"], ["label"], [],
       ["label", "placeholder", "type"], ["label", "placeholder", "type"]] := rfl
  refine ⟨h, ?_⟩
  rw [h]
  decide

/-- The field names bound by the descriptor list, in order. -/
theorem descriptors_bound_names {Item : Type} (c : Config Item) :
    c.descriptors.filterMap Descriptor.fieldName =
      ["Name", "Domain", "BindAddress", "HTTPPort", "HTTPSPort", "AdminEmail",
       "ClientSecret", "ClientSecret", "Etag", "Etag", "DisableCORS", "DisableGZIP",
       "DisableHTTPCache", "CacheMaxAge", "CacheInvalidate", "BackupBasicAuthUser",
       "BackupBasicAuthPassword"] := rfl

/-- C4: ClientSecret and Etag are each bound by exactly two descriptors, which
are adjacent calls of `editor.Input` on the same field name and the same
entity: the first carries a label and disabled = "true" and no type, the
second carries exactly type = "hidden"; the two copies share the field's
`json` tag and read the same current value; every other field name is bound
by at most one descriptor. -/
theorem locked_fields_rendered_twice {Item : Type} (ed : Editor Item) (c : Config Item) :
    (c.descriptors[6]? = some (.Input "ClientSecret"
        [("label", "客户端密码（用于验证请求，一般人别告诉他）"), ("disabled", "true")]) ∧
      c.descriptors[7]? = some (.Input "ClientSecret" [("type", "hidden")]) ∧
      c.descriptors[8]? = some (.Input "Etag"
        [("label", "Etag头消息（用于缓存控制）"), ("disabled", "true")]) ∧
      c.descriptors[9]? = some (.Input "Etag" [("type", "hidden")])) ∧
    ((c.descriptors[6]?.map Descriptor.attrs).map
        (fun a => (a.lookup "label", a.lookup "disabled", a.lookup "type"))
        = some (some "客户端密码（用于验证请求，一般人别告诉他）", some "true", none) ∧
      (c.descriptors[8]?.map Descriptor.attrs).map
        (fun a => (a.lookup "label", a.lookup "disabled", a.lookup "type"))
        = some (some "Etag头消息（用于缓存控制）", some "true", none)) ∧
    ((c.formFields ed)[6]? = some ⟨ed.Input "ClientSecret" c
        [("label", "客户端密码（用于验证请求，一般人别告诉他）"), ("disabled", "true")]⟩ ∧
      (c.formFields ed)[7]? = some ⟨ed.Input "ClientSecret" c [("type", "hidden")]⟩ ∧
      (c.formFields ed)[8]? = some ⟨ed.Input "Etag" c
        [("label", "Etag头消息（用于缓存控制）"), ("disabled", "true")]⟩ ∧
      (c.formFields ed)[9]? = some ⟨ed.Input "Etag" c [("type", "hidden")]⟩) ∧
    (Config.jsonTag "ClientSecret" = some "client_secret" ∧
      Config.jsonTag "Etag" = some "etag" ∧
      c.fieldValue "ClientSecret" = some (.str c.ClientSecret) ∧
      c.fieldValue "Etag" = some (.str c.Etag)) ∧
    (c.bindCount "ClientSecret" = 2 ∧ c.bindCount "Etag" = 2) ∧
    ∀ n : String, c.bindCount n ≤ 1 ∨ n = "ClientSecret" ∨ n = "Etag" := by
  refine ⟨⟨rfl, rfl, rfl, rfl⟩, ⟨rfl, rfl⟩, ⟨rfl, rfl, rfl, rfl⟩,
    ⟨by decide, by decide, by simp [Config.fieldValue], by simp [Config.fieldValue]⟩,
    ⟨?_, ?_⟩, ?_⟩
  · simp only [Config.bindCount, descriptors_bound_names]; decide
  · simp only [Config.bindCount, descriptors_bound_names]; decide
  · intro n
    by_cases h1 : n = "ClientSecret"
    · exact Or.inr (Or.inl h1)
    by_cases h2 : n = "Etag"
    · exact Or.inr (Or.inr h2)
    left
    simp only [Config.bindCount, descriptors_bound_names]
    have hnd : (["Name", "Domain", "BindAddress", "HTTPPort", "HTTPSPort", "AdminEmail",
        "ClientSecret", "Etag", "DisableCORS", "DisableGZIP",
        "DisableHTTPCache", "CacheMaxAge", "CacheInvalidate", "BackupBasicAuthUser",
        "BackupBasicAuthPassword"] : List String).Nodup := by decide
    have hle := List.nodup_iff_count_le_one.mp hnd n
    have e1 : ("ClientSecret" == n) = false := by
      simpa [beq_eq_false_iff_ne] using fun h => h1 h.symm
    have e2 : ("Etag" == n) = false := by
      simpa [beq_eq_false_iff_ne] using fun h => h2 h.symm
    simp only [List.count_cons, List.count_nil, e1, e2] at hle ⊢
    simpa using hle

/-- C5: the fifteen declared fields map to their external names as listed; the
external names are pairwise distinct, each is a non-empty word of lowercase
ASCII letters and underscores, and each differs from the Go field name. -/
theorem external_names_fixed_injective :
    Config.structFields.map (fun f => (f.name, f.json)) =
        [("Name", "name"), ("Domain", "domain"), ("BindAddress", "bind_addr"),
         ("HTTPPort", "http_port"), ("HTTPSPort", "https_port"),
         ("AdminEmail", "admin_email"), ("ClientSecret", "client_secret"),
         ("Etag", "etag"), ("DisableCORS", "cors_disabled"),
         ("DisableGZIP", "gzip_disabled"), ("DisableHTTPCache", "cache_disabled"),
         ("CacheMaxAge", "cache_max_age"), ("CacheInvalidate", "cache"),
         ("BackupBasicAuthUser", "backup_basic_auth_user"),
         ("BackupBasicAuthPassword", "backup_basic_auth_password")] ∧
      Config.structFields.length = 15 ∧
      (Config.structFields.map StructField.name).Nodup ∧
      (Config.structFields.map StructField.json).Nodup ∧
      Config.structFields.all (fun f => isExternalName f.json) = true ∧
      Config.structFields.all (fun f => f.json != f.name) = true ∧
      Config.fieldNames.map Config.jsonTag =
        (Config.structFields.map StructField.json).map some := by
  refine ⟨rfl, rfl, by decide, by decide, by decide, by decide, by decide⟩

/-- C6: the stored `CacheMaxAge` is `min (max n 0) 259200` for every input,
so it lies in [0, 259200]; 999999 is stored as 259200, -5 as 0 and 3600 as
3600. -/
theorem clampCacheMaxAge_spec (n : Int) :
    clampCacheMaxAge n = min (max n 0) 259200 ∧
      0 ≤ clampCacheMaxAge n ∧ clampCacheMaxAge n ≤ 259200 ∧
      clampCacheMaxAge 999999 = 259200 ∧
      clampCacheMaxAge (-5) = 0 ∧
      clampCacheMaxAge 3600 = 3600 := by
  refine ⟨?_, ?_, ?_, by decide, by decide, by decide⟩
  · unfold clampCacheMaxAge
    split_ifs with h1 h2 <;> omega
  · unfold clampCacheMaxAge
    split_ifs with h1 h2 <;> omega
  · unfold clampCacheMaxAge
    split_ifs with h1 h2 <;> omega

/-- C9: BindAddress, HTTPPort and HTTPSPort are each bound by exactly one
descriptor, a call of `editor.Input` whose options are exactly
type = "hidden". -/
theorem network_fields_hidden_only {Item : Type} (c : Config Item) :
    c.boundTo "BindAddress" = [.Input "BindAddress" [("type", "hidden")]] ∧
      c.boundTo "HTTPPort" = [.Input "HTTPPort" [("type", "hidden")]] ∧
      c.boundTo "HTTPSPort" = [.Input "HTTPSPort" [("type", "hidden")]] ∧
      c.bindCount "BindAddress" = 1 ∧ c.bindCount "HTTPPort" = 1 ∧
      c.bindCount "HTTPSPort" = 1 := by
  refine ⟨?_, ?_, ?_, ?_, ?_, ?_⟩
  · simp [Config.boundTo, Config.descriptors, Descriptor.fieldName, List.filter]
  · simp [Config.boundTo, Config.descriptors, Descriptor.fieldName, List.filter]
  · simp [Config.boundTo, Config.descriptors, Descriptor.fieldName, List.filter]
  · simp only [Config.bindCount, descriptors_bound_names]; decide
  · simp only [Config.bindCount, descriptors_bound_names]; decide
  · simp only [Config.bindCount, descriptors_bound_names]; decide

/-- C10: every field name a descriptor binds is a declared field of `Config`,
with a `json` tag and a current value, and every declared field is bound by
some descriptor. -/
theorem descriptors_cover_fields {Item : Type} (c : Config Item) :
    c.descriptors.filterMap Descriptor.fieldName ⊆ Config.fieldNames ∧
      Config.fieldNames ⊆ c.descriptors.filterMap Descriptor.fieldName ∧
      Config.fieldNames.length = 15 ∧
      (c.descriptors.filterMap Descriptor.fieldName).all
        (fun n => (Config.jsonTag n).isSome && (c.fieldValue n).isSome) = true ∧
      Config.fieldNames.all (fun n => decide (1 ≤ c.bindCount n)) = true := by
  refine ⟨?_, ?_, rfl, ?_, ?_⟩
  · rw [descriptors_bound_names]; decide
  · rw [descriptors_bound_names]; decide
  · rw [descriptors_bound_names]
    simp [Config.fieldValue, Config.jsonTag, Config.structFields]
  · simp only [Config.bindCount, descriptors_bound_names]; rfl

end Ponzu
